import Mathlib

/-!
Verification of the ClipTunnel transfer protocol (src/transfer.py) against its
specification.  The shallow embedding below translates the sender and receiver
state machines, the chunking arithmetic, the channel-poll deduplication and the
base64 byte-to-text codec into Lean definitions, then settles the spec claims
as theorems about those definitions.

Modelling conventions:
* Python `json.loads` results are represented by `Parsed`: a JSON object
  becomes `Parsed.obj` over an association list of string keys and `JVal`
  field values; valid JSON that is not an object (a number, list, string,
  bool or null at top level) becomes `Parsed.nonObj`; text that raises
  `json.JSONDecodeError` becomes `Parsed.malformed`.
* SHA-256 hex digests are abstracted as a function parameter
  `H : String → String` (the receiver and sender only ever compare digests
  for equality, never inspect them).
* Machine integers do not occur: all counters are small Python ints, modelled
  as `Nat`/`Int`.
-/

namespace ClipTunnel

/-- A JSON field value as produced by `json.loads`.  Containers (arrays and
nested objects) carry no structure because the transfer code never looks
inside them: every path that touches one either raises an uncaught error or
an error caught by the `except` clause (they are unhashable as dict keys). -/
inductive JVal where
  | jstr (s : String)
  | jint (n : Int)
  | jbool (b : Bool)
  | jnull
  | jarr
  | jobjv
  deriving DecidableEq

/-- Python `==` between two JSON scalar values (`True == 1` in Python, so a
bool compares equal to the corresponding int).  Containers are never compared
by the modelled code paths. -/
def pyEq : JVal → JVal → Bool
  | JVal.jint a, JVal.jint b => a == b
  | JVal.jint a, JVal.jbool b => a == (if b then (1 : Int) else 0)
  | JVal.jbool a, JVal.jint b => (if a then (1 : Int) else 0) == b
  | JVal.jbool a, JVal.jbool b => a == b
  | JVal.jstr a, JVal.jstr b => a == b
  | JVal.jnull, JVal.jnull => true
  | _, _ => false

/-- Python `==` between a JSON value and a Python int (used for
`ack.get("ack_num") == chunk_num` and `len(stored_chunks) == total_chunks`). -/
def jvalEqInt (v : JVal) (n : Int) : Bool :=
  pyEq v (JVal.jint n)

/-- Whether a JSON value is hashable in Python (usable as a dict key):
scalars are, lists and dicts are not. -/
def hashable : JVal → Bool
  | JVal.jarr => false
  | JVal.jobjv => false
  | _ => true

/-- The result of `json.loads` on a channel read. -/
inductive Parsed where
  | obj (fields : List (String × JVal))
  | nonObj (v : JVal)
  | malformed
  deriving DecidableEq

/-- Python `dict.get(k)`: `none` both when the key is absent and when its
value is JSON `null` (Python `None`). -/
def pyGet (fields : List (String × JVal)) (k : String) : Option JVal :=
  match fields.lookup k with
  | some JVal.jnull => none
  | v => v

/-- Python `d.get(k) == s` for a string literal `s`. -/
def optIsStr (v : Option JVal) (s : String) : Bool :=
  match v with
  | some (JVal.jstr t) => t == s
  | _ => false

/-- Python `d.get(k) == n` for a Python int `n`. -/
def jvalOptEqInt (v : Option JVal) (n : Int) : Bool :=
  match v with
  | some w => jvalEqInt w n
  | none => false

/-- The receiver session state of `run_receive_mode` (transfer.py:161):
`stored_chunks` is a dict in insertion order, `total_chunks` starts at the
int sentinel `-1`, `file_hash` and `archive_type` start as Python `None`. -/
structure RecvState where
  stored : List (JVal × String)
  total : JVal
  fileHash : Option JVal
  archiveType : Option JVal
  deriving DecidableEq

/-- The initial receiver state (transfer.py:161). -/
def recvInit : RecvState :=
  { stored := [], total := JVal.jint (-1), fileHash := none, archiveType := none }

/-- Outcome of processing one fresh channel content in the receiver loop. -/
inductive RecvOut where
  | crash
  | haltFinish (s : RecvState)
  | haltComplete (s : RecvState) (ack : Option JVal)
  | cont (s : RecvState) (ack : Option JVal)
  deriving DecidableEq

/-- The ack packet (if any) the iteration wrote to the channel. -/
def RecvOut.ackOut : RecvOut → Option JVal
  | RecvOut.crash => none
  | RecvOut.haltFinish _ => none
  | RecvOut.haltComplete _ a => a
  | RecvOut.cont _ a => a

/-- The receiver state after the iteration, `none` on an uncaught exception. -/
def RecvOut.stateOut : RecvOut → Option RecvState
  | RecvOut.crash => none
  | RecvOut.haltFinish s => some s
  | RecvOut.haltComplete s a => (fun _ => some s) a
  | RecvOut.cont s a => (fun _ => some s) a

/-- The completion test at transfer.py:193:
`total_chunks != -1 and len(stored_chunks) == total_chunks`. -/
def allReceived (st : RecvState) : Bool :=
  !(jvalEqInt st.total (-1)) && pyEq (JVal.jint (st.stored.length : Int)) st.total

/-- The fall-through point after the inner `try`/`except` (transfer.py:193):
break out of the loop when all chunks are in, otherwise sleep and continue. -/
def checkBreak (st : RecvState) (ack : Option JVal) : RecvOut :=
  if allReceived st then RecvOut.haltComplete st ack else RecvOut.cont st ack

/-- The metadata latch at transfer.py:174-177: on the first data packet
(while `file_hash is None`) take `original_file_hash` and `archive_type`
from the packet via `dict.get`. -/
def latchMeta (st : RecvState) (fields : List (String × JVal)) : RecvState :=
  if st.fileHash.isNone then
    { st with fileHash := pyGet fields "original_file_hash",
              archiveType := pyGet fields "archive_type" }
  else st

/-- transfer.py:185-191: store the payload under `chunk_num` only if that key
is not already present, then unconditionally write `Ack{ack_num: chunk_num}`.
An unhashable `chunk_num` raises `TypeError` at the membership test, which the
`except` clause at transfer.py:192 catches (`pass`), so no ack is written. -/
def storeAndAck (st : RecvState) (cn : JVal) (pls : String) : RecvOut :=
  if hashable cn then
    if st.stored.any (fun kv => pyEq kv.1 cn) then
      checkBreak st (some cn)
    else
      checkBreak { st with stored := st.stored ++ [(cn, pls)] } (some cn)
  else
    checkBreak st none

/-- The digest comparison at transfer.py:180:
`hashlib.sha256(payload.encode()).hexdigest() != packet["hash"]` is a
mismatch whenever the `hash` field is not the string `H payload` (a non-string
field value never equals a Python str). -/
def digestOk (H : String → String) (pls : String) (hv : JVal) : Bool :=
  match hv with
  | JVal.jstr h => H pls == h
  | _ => false

/-- The data-packet body, transfer.py:179-191, entered with the metadata
already latched into `st`.  `KeyError` on a missing `chunk_num`, `payload`,
`hash` or `total_chunks` is caught at transfer.py:192 and falls through to the
completion check; `payload.encode` on a non-string payload raises
`AttributeError`, which is NOT in that `except` clause and crashes the
receiver; a digest mismatch does `continue` and skips the completion check. -/
def dataPath (H : String → String) (st : RecvState)
    (fields : List (String × JVal)) : RecvOut :=
  match fields.lookup "chunk_num", fields.lookup "payload" with
  | none, _ => checkBreak st none
  | some _, none => checkBreak st none
  | some cn, some (JVal.jstr pls) =>
    match fields.lookup "hash" with
    | none => checkBreak st none
    | some hv =>
      if !(digestOk H pls hv) then
        RecvOut.cont st none
      else if jvalEqInt st.total (-1) then
        match fields.lookup "total_chunks" with
        | none => checkBreak st none
        | some tv => storeAndAck { st with total := tv } cn pls
      else
        storeAndAck st cn pls
  | some _, some _ => RecvOut.crash

/-- One iteration of the receiver loop body (transfer.py:170-194) on a fresh,
non-empty channel content, already through `json.loads`.  A content that is
valid JSON but not an object reaches `packet.get("type")` on a non-dict value
(transfer.py:172), raising `AttributeError`, which neither the inner `except`
(transfer.py:192 — only `JSONDecodeError, KeyError, TypeError`) nor the outer
one (transfer.py:195 — only `KeyboardInterrupt`) catches: the receiver
crashes.  `H` is the SHA-256 hex digest over the UTF-8 payload text. -/
def recvStep (H : String → String) (st : RecvState) (p : Parsed) : RecvOut :=
  match p with
  | Parsed.malformed => checkBreak st none
  | Parsed.nonObj _ => RecvOut.crash
  | Parsed.obj fields =>
    if optIsStr (pyGet fields "type") "finish" then RecvOut.haltFinish st
    else if !(optIsStr (pyGet fields "type") "data") then RecvOut.cont st none
    else dataPath H (latchMeta st fields) fields

/-- Number of stored entries whose key compares Python-equal to `k`. -/
def keyCount (stored : List (JVal × String)) (k : JVal) : Nat :=
  (stored.filter (fun kv => pyEq kv.1 k)).length

/-- Python truthiness of a JSON scalar value (`if archive_type:` and
`if not file_hash:`).  For containers the model has no contents, so they are
treated as truthy; the transfer code never reaches those tests with a
container in practice. -/
def pyTruthy : JVal → Bool
  | JVal.jstr s => s != ""
  | JVal.jint n => n != 0
  | JVal.jbool b => b
  | JVal.jnull => false
  | JVal.jarr => true
  | JVal.jobjv => true

/-- Extract the stored dict as int-keyed pairs; `none` when some key is not a
JSON int (then Python `sorted` over mixed key types raises `TypeError`
outside any `try`, crashing at transfer.py:204). -/
def intKeyed : List (JVal × String) → Option (List (Int × String))
  | [] => some []
  | (JVal.jint n, s) :: rest => (intKeyed rest).map (fun l => (n, s) :: l)
  | _ => none

/-- Insert a pair into a list held sorted by key. -/
def insertByKey (p : Int × String) : List (Int × String) → List (Int × String)
  | [] => [p]
  | q :: rest => if p.1 ≤ q.1 then p :: q :: rest else q :: insertByKey p rest

/-- Sort pairs by key: the model of `sorted(stored_chunks.keys())` followed by
looking each key up (transfer.py:204). -/
def sortPairs : List (Int × String) → List (Int × String)
  | [] => []
  | p :: rest => insertByKey p (sortPairs rest)

/-- Outcome of the receiver's post-loop phase (transfer.py:197-221). -/
inductive FinalOutcome where
  | incomplete (got : Nat) (total : JVal)
  | crashed
  | saveFailed
  | fileWritten (path : String) (data : List Nat) (verdict : Option Bool)
  deriving DecidableEq

/-- The output filename fixup at transfer.py:200-202: append the archive
extension when one was latched (and truthy) and the name does not already end
with it.  `str.endswith` on a non-string raises `TypeError`, uncaught here. -/
def finalPathOf (archiveType : Option JVal) (out : String) : Option String :=
  match archiveType with
  | none => some out
  | some v =>
    if pyTruthy v then
      match v with
      | JVal.jstr ext => some (if out.endsWith ext then out else out ++ ext)
      | _ => none
    else some out

/-- The receiver's post-loop phase, transfer.py:197-221: report `Incomplete`
when no chunk or not exactly `total_chunks` chunks were stored (no file is
written on that branch); otherwise reassemble in ascending `chunk_num` order,
reverse the base64 encoding (`b64dec` below), write the file, and compare the
whole-file digest `HB` of the written bytes against the latched `file_hash`
(`verdict` is `none` when `file_hash` is falsy, otherwise whether the hashes
match).  A decode failure is caught at transfer.py:209 and no file is
written. -/
def finishPhase (HB : List Nat → String)
    (b64dec : String → Option (List Nat))
    (st : RecvState) (out : String) : FinalOutcome :=
  if st.stored.isEmpty || !(pyEq (JVal.jint (st.stored.length : Int)) st.total) then
    FinalOutcome.incomplete st.stored.length st.total
  else
    match finalPathOf st.archiveType out with
    | none => FinalOutcome.crashed
    | some path =>
      match intKeyed st.stored with
      | none => FinalOutcome.crashed
      | some pairs =>
        let fullB64 := String.join ((sortPairs pairs).map (fun p => p.2))
        match b64dec fullB64 with
        | none => FinalOutcome.saveFailed
        | some bytes =>
          let verdict : Option Bool :=
            match st.fileHash with
            | none => none
            | some v =>
              if pyTruthy v then some (pyEq (JVal.jstr (HB bytes)) v) else none
          FinalOutcome.fileWritten path bytes verdict

/-- One receiver poll tick, transfer.py:167-169: skip (sleep and re-poll)
when the clipboard text equals the last seen value OR is empty; otherwise
record it as last seen and process it.  Returns the new `last_cb_content`
and whether the handler body runs. -/
def recvTick (last content : String) : String × Bool :=
  if content == last || content == "" then (last, false) else (content, true)

/-- One sender poll tick inside the ack wait, transfer.py:145-147: skip only
when the clipboard text equals the last seen value (empty text that differs
from the last seen value IS processed). -/
def sendTick (last content : String) : String × Bool :=
  if content == last then (last, false) else (content, true)

/-- `CHUNK_SIZE = 120 * 1024` (transfer.py:24). -/
def CHUNK_SIZE : Nat := 120 * 1024

/-- `ACK_TIMEOUT_SECONDS = 15` (transfer.py:25). -/
def ACK_TIMEOUT_SECONDS : Nat := 15

/-- `total_chunks = math.ceil(len(base64_string) / CHUNK_SIZE)`
(transfer.py:128), as the exact ceiling division. -/
def totalChunks (n : Nat) : Nat := (n + CHUNK_SIZE - 1) / CHUNK_SIZE

/-- The chunk list produced by slicing `enc[i*C:(i+1)*C]` for `i` over
`range(ceil(len/C))`, generic in the chunk size `C` (transfer.py:133-137). -/
def chunksFull (C : Nat) (enc : List Char) : List (List Char) :=
  (List.range ((enc.length + C - 1) / C)).map
    (fun i => (enc.drop (i * C)).take C)

/-- The sender's chunks of the encoded text at the program's `CHUNK_SIZE`. -/
def senderChunks (enc : List Char) : List (List Char) :=
  chunksFull CHUNK_SIZE enc

/-- The standard base64 alphabet used by `base64.b64encode`/`b64decode`
(RFC 4648), invoked at transfer.py:127 and transfer.py:206.  The library
codec is embedded explicitly because the round-trip claim is about it. -/
def b64chars : List Char :=
  "ABCDEFGHIJKLMNOPQRSTUVWXYZabcdefghijklmnopqrstuvwxyz0123456789+/".toList

/-- The alphabet character for a sextet. -/
def b64char (n : Nat) : Char := b64chars.getD n '='

/-- Position of a character in a list. -/
def idxOf (c : Char) : List Char → Option Nat
  | [] => none
  | x :: xs => if x = c then some 0 else (idxOf c xs).map (fun n => n + 1)

/-- The sextet a base64 alphabet character stands for. -/
def b64index (c : Char) : Option Nat := idxOf c b64chars

/-- `base64.b64encode` over bytes given as naturals below 256: groups of
three bytes become four alphabet characters; a final group of one or two
bytes is padded with `=`. -/
def b64encodeRec : List Nat → List Char
  | [] => []
  | [a] => [b64char (a / 4), b64char (a % 4 * 16), '=', '=']
  | [a, b] => [b64char (a / 4), b64char (a % 4 * 16 + b / 16),
               b64char (b % 16 * 4), '=']
  | a :: b :: c :: rest =>
      b64char (a / 4) :: b64char (a % 4 * 16 + b / 16) ::
      b64char (b % 16 * 4 + c / 64) :: b64char (c % 64) :: b64encodeRec rest

/-- `base64.b64decode` on properly padded base64 text: four characters at a
time, honouring `=` padding in the final group; `none` models
`binascii.Error`. -/
def b64decodeRec : List Char → Option (List Nat)
  | [] => some []
  | c1 :: c2 :: c3 :: c4 :: rest =>
    match b64index c1, b64index c2 with
    | some i1, some i2 =>
      if c3 = '=' ∧ c4 = '=' ∧ rest = [] then
        some [i1 * 4 + i2 / 16]
      else
        match b64index c3 with
        | some i3 =>
          if c4 = '=' ∧ rest = [] then
            some [i1 * 4 + i2 / 16, i2 % 16 * 16 + i3 / 4]
          else
            match b64index c4, b64decodeRec rest with
            | some i4, some bs =>
              some ((i1 * 4 + i2 / 16) :: (i2 % 16 * 16 + i3 / 4) ::
                    (i3 % 4 * 64 + i4) :: bs)
            | _, _ => none
        | none => none
    | _, _ => none
  | _ => none

/-- `b64decodeRec` over a `String` (the joined payload at transfer.py:206). -/
def b64decodeStr (s : String) : Option (List Nat) := b64decodeRec s.toList

/-- A write the sender performs on the channel: a data packet (given by its
JSON object fields) or the final finish packet. -/
inductive SendEvent where
  | wroteData (fields : List (String × JVal))
  | wroteFinish
  deriving DecidableEq

/-- The JSON object the sender builds for chunk index `i` (0-based), in the
field order of transfer.py:139.  `payload` is the slice
`base64_string[i*CHUNK_SIZE:(i+1)*CHUNK_SIZE]`, `hash` its digest under `H`,
`fh` the whole-file hash and `at_` the archive extension (JSON null when not
archiving). -/
def dataPacketFields (H : String → String) (enc : List Char)
    (fh at_ : JVal) (i : Nat) : List (String × JVal) :=
  let payload := ((enc.drop (i * CHUNK_SIZE)).take CHUNK_SIZE).asString
  [("type", JVal.jstr "data"),
   ("chunk_num", JVal.jint ((i : Int) + 1)),
   ("total_chunks", JVal.jint (totalChunks enc.length : Int)),
   ("original_file_hash", fh),
   ("archive_type", at_),
   ("hash", JVal.jstr (H payload)),
   ("payload", JVal.jstr payload)]

/-- `ack.get("type") == "ack" and ack.get("ack_num") == chunk_num`
(transfer.py:150); `AttributeError` on a non-dict is caught at
transfer.py:152, so any non-object counts as a non-matching read. -/
def ackMatches (p : Parsed) (n : Nat) : Bool :=
  match p with
  | Parsed.obj fields =>
    optIsStr (pyGet fields "type") "ack" &&
      jvalOptEqInt (pyGet fields "ack_num") (n : Int)
  | _ => false

/-- The sender's control state: `idx` is the 0-based loop variable `i`,
`ticks` how many 1-second polls have elapsed in the current ack wait,
`lastCb` the dedup cursor `last_cb_content`, `done` whether the finish packet
has been written.  `α` stands for raw clipboard text (compared by equality
at transfer.py:146), `parse` for `json.loads` on it. -/
structure SendState (α : Type) where
  idx : Nat
  ticks : Nat
  lastCb : α
  done : Bool

/-- Enter the attempt loop for chunk index `i`: write its data packet and
start the ack wait; past the last chunk, write the finish packet instead
(transfer.py:133-140, 156-157). -/
def startChunk {α : Type} (H : String → String) (enc : List Char)
    (fh at_ : JVal) (lastCb : α) (i : Nat) : SendState α × List SendEvent :=
  if i < totalChunks enc.length then
    ({ idx := i, ticks := 0, lastCb := lastCb, done := false },
     [SendEvent.wroteData (dataPacketFields H enc fh at_ i)])
  else
    ({ idx := i, ticks := 0, lastCb := lastCb, done := true },
     [SendEvent.wroteFinish])

/-- One elapsed poll second without a matching ack: when the 15-second
`ACK_TIMEOUT_SECONDS` budget is used up, re-write the identical data packet
and restart the wait (transfer.py:144, 154); otherwise keep waiting. -/
def tickOrResend {α : Type} (H : String → String) (enc : List Char)
    (fh at_ : JVal) (s : SendState α) : SendState α × List SendEvent :=
  if s.ticks + 1 ≥ ACK_TIMEOUT_SECONDS then
    ({ s with ticks := 0 },
     [SendEvent.wroteData (dataPacketFields H enc fh at_ s.idx)])
  else
    ({ s with ticks := s.ticks + 1 }, [])

/-- One poll of the sender's ack wait (transfer.py:144-153), consuming one
clipboard read `r`: content equal to `last_cb_content` is skipped (one second
passes); fresh content updates the cursor and, when it decodes to an ack with
`ack_num == chunk_num` (= `idx + 1`), advances to the next chunk, else one
second passes.  Malformed or non-object content is caught at transfer.py:152
and treated as not-yet-acked. -/
def sendStep {α : Type} [DecidableEq α] (parse : α → Parsed)
    (H : String → String) (enc : List Char) (fh at_ : JVal)
    (s : SendState α) (r : α) : SendState α × List SendEvent :=
  if s.done then (s, [])
  else if r = s.lastCb then
    tickOrResend H enc fh at_ s
  else if ackMatches (parse r) (s.idx + 1) then
    startChunk H enc fh at_ r (s.idx + 1)
  else
    tickOrResend H enc fh at_ { s with lastCb := r }

/-- Run the sender machine over a trace of clipboard reads, collecting the
channel writes. -/
def senderRunFrom {α : Type} [DecidableEq α] (parse : α → Parsed)
    (H : String → String) (enc : List Char) (fh at_ : JVal)
    (s : SendState α) : List α → List SendEvent
  | [] => []
  | r :: rs =>
    let (s2, es) := sendStep parse H enc fh at_ s r
    es ++ senderRunFrom parse H enc fh at_ s2 rs

/-- A whole sender run: `last_cb_content` starts as `e0` (the empty string,
transfer.py:132), chunk index 0 starts first, then the reads drive the
machine. -/
def senderRun {α : Type} [DecidableEq α] (parse : α → Parsed)
    (H : String → String) (enc : List Char) (fh at_ : JVal)
    (e0 : α) (reads : List α) : List SendEvent :=
  let (s0, es0) := startChunk H enc fh at_ e0 0
  es0 ++ senderRunFrom parse H enc fh at_ s0 reads

/-! ## Helper lemmas -/

lemma latchMeta_stored (st : RecvState) (fields : List (String × JVal)) :
    (latchMeta st fields).stored = st.stored := by
  unfold latchMeta; split <;> rfl

lemma latchMeta_total (st : RecvState) (fields : List (String × JVal)) :
    (latchMeta st fields).total = st.total := by
  unfold latchMeta; split <;> rfl

lemma checkBreak_ackOut (st : RecvState) (a : Option JVal) :
    (checkBreak st a).ackOut = a := by
  unfold checkBreak; split <;> rfl

lemma checkBreak_stateOut (st : RecvState) (a : Option JVal) :
    (checkBreak st a).stateOut = some st := by
  unfold checkBreak; split <;> rfl

lemma checkBreak_cases (st : RecvState) (a : Option JVal) (r : RecvOut)
    (h : checkBreak st a = r) :
    (r = RecvOut.haltComplete st a ∧ allReceived st = true) ∨
    (r = RecvOut.cont st a ∧ allReceived st = false) := by
  unfold checkBreak at h
  split at h
  · exact Or.inl ⟨h.symm, by assumption⟩
  · exact Or.inr ⟨h.symm, by simp_all⟩

lemma optIsStr_of_other (v : Option JVal) (s1 s2 : String)
    (h : optIsStr v s1 = true) (hne : s1 ≠ s2) : optIsStr v s2 = false := by
  unfold optIsStr at *
  match v with
  | none => simp at h
  | some (JVal.jstr t) =>
    simp only [beq_iff_eq] at h
    subst h
    simpa using hne
  | some (JVal.jint _) | some (JVal.jbool _) | some JVal.jnull
  | some JVal.jarr | some JVal.jobjv => simp at h

/-! ## C1 -/

/-- C1: the claim that every malformed / unknown-type / missing-field channel
content is treated as noise fails on the code: channel content that is valid
JSON but not a JSON object (here the text "42") reaches
`packet.get("type")` on a Python int, which raises `AttributeError`; the
receiver's `except (json.JSONDecodeError, KeyError, TypeError)` at
transfer.py:192 does not catch it (unlike the sender's clause at
transfer.py:152), so the receiver crashes instead of continuing to poll. -/
theorem receiver_crashes_on_nonobject_json :
    recvStep (fun s => s) recvInit (Parsed.nonObj (JVal.jint 42)) =
      RecvOut.crash := rfl

/-! ## C8 -/

/-- C8 counterexample: the claim says any content other than the last seen
value — including empty content — is handed to the handler; but the
receiver's poll tick (transfer.py:168) skips empty clipboard content even
when it differs from `last_seen_content` "x", without invoking the handler. -/
theorem receiver_poll_skips_fresh_empty_content :
    (recvTick "x" "").2 = false ∧ ("" : String) ≠ "x" := by decide

/-- C8 (amended): on each poll tick a content equal to `last_seen_content` is
skipped; the Receiver additionally treats empty content as "no change"
(skipped without updating `last_seen_content`); any other content updates
`last_seen_content` and is handed to the handler.  The Sender's ack-wait poll
skips only on equality, so it hands fresh empty content to its handler. -/
theorem poll_tick_dedup (last content : String) :
    ((recvTick last content).2 = true ↔ (content ≠ last ∧ content ≠ "")) ∧
    ((recvTick last content).2 = true → (recvTick last content).1 = content) ∧
    ((recvTick last content).2 = false → (recvTick last content).1 = last) ∧
    ((sendTick last content).2 = true ↔ content ≠ last) ∧
    ((sendTick last content).2 = true → (sendTick last content).1 = content) := by
  unfold recvTick sendTick
  by_cases h1 : content = last <;> by_cases h2 : content = "" <;>
    simp_all

/-! ## C3 -/

/-- C3: whenever the receiver leaves its loop with no stored chunk or with a
stored count that does not equal `total_chunks`, the post-loop phase
(transfer.py:197-198) reports the transfer incomplete with the counts and
returns before any output file is written (the only file write in the model
is the `fileWritten` outcome of the other branch). -/
theorem receiver_incomplete_reported (HB : List Nat → String)
    (b64dec : String → Option (List Nat)) (st : RecvState) (out : String)
    (h : st.stored = [] ∨
         pyEq (JVal.jint (st.stored.length : Int)) st.total = false) :
    finishPhase HB b64dec st out =
      FinalOutcome.incomplete st.stored.length st.total := by
  unfold finishPhase
  rcases h with h | h
  · simp [h]
  · simp [h]

/-- C3 witness: a receiver that stored nothing (total never latched) reports
Incomplete with counts 0 and -1 and writes nothing. -/
theorem receiver_incomplete_reported_witness :
    finishPhase (fun _ => "") (fun _ => none) recvInit "out" =
      FinalOutcome.incomplete 0 (JVal.jint (-1)) :=
  receiver_incomplete_reported (fun _ => "") (fun _ => none) recvInit "out"
    (Or.inl rfl)

lemma recvStep_data (H : String → String) (st : RecvState)
    (fields : List (String × JVal))
    (htype : optIsStr (pyGet fields "type") "data" = true) :
    recvStep H st (Parsed.obj fields) = dataPath H (latchMeta st fields) fields := by
  simp only [recvStep]
  rw [optIsStr_of_other _ _ _ htype (by decide), htype]
  simp

/-! ## C2 -/

/-- C2: a data packet whose `hash` field does not equal the recomputed digest
of its `payload` text is dropped at transfer.py:180-181: no ack is written,
the chunk is not stored (the receiver state is the input state, at most with
the session metadata latched, which leaves `stored_chunks` untouched). -/
theorem receiver_corrupt_chunk_dropped (H : String → String) (st : RecvState)
    (fields : List (String × JVal)) (cn hv : JVal) (pls : String)
    (htype : optIsStr (pyGet fields "type") "data" = true)
    (hcn : fields.lookup "chunk_num" = some cn)
    (hpl : fields.lookup "payload" = some (JVal.jstr pls))
    (hhash : fields.lookup "hash" = some hv)
    (hmis : digestOk H pls hv = false) :
    (recvStep H st (Parsed.obj fields)).ackOut = none ∧
    (recvStep H st (Parsed.obj fields)).stateOut = some (latchMeta st fields) ∧
    (latchMeta st fields).stored = st.stored := by
  rw [recvStep_data H st fields htype]
  unfold dataPath
  rw [hcn, hpl, hhash]
  simp only [hmis, Bool.not_false, if_pos rfl]
  exact ⟨rfl, rfl, latchMeta_stored st fields⟩

/-- C2 witness: a concrete corrupt data packet (payload "abc", hash field
"nope", digest function the identity) is neither stored nor acknowledged. -/
theorem receiver_corrupt_chunk_dropped_witness :
    (recvStep (fun s => s) recvInit (Parsed.obj
      [("type", JVal.jstr "data"), ("chunk_num", JVal.jint 1),
       ("payload", JVal.jstr "abc"),
       ("hash", JVal.jstr "nope")])).ackOut = none ∧
    (recvStep (fun s => s) recvInit (Parsed.obj
      [("type", JVal.jstr "data"), ("chunk_num", JVal.jint 1),
       ("payload", JVal.jstr "abc"),
       ("hash", JVal.jstr "nope")])).stateOut = some (latchMeta recvInit
      [("type", JVal.jstr "data"), ("chunk_num", JVal.jint 1),
       ("payload", JVal.jstr "abc"),
       ("hash", JVal.jstr "nope")]) ∧
    (latchMeta recvInit
      [("type", JVal.jstr "data"), ("chunk_num", JVal.jint 1),
       ("payload", JVal.jstr "abc"),
       ("hash", JVal.jstr "nope")]).stored = recvInit.stored :=
  receiver_corrupt_chunk_dropped (fun s => s) recvInit _ _ _ _
    (by decide) rfl rfl rfl (by decide)

/-! ## C4 -/

lemma dataPath_valid (H : String → String) (st : RecvState)
    (fields : List (String × JVal)) (cn hv tv : JVal) (pls : String)
    (hcn : fields.lookup "chunk_num" = some cn)
    (hpl : fields.lookup "payload" = some (JVal.jstr pls))
    (hhash : fields.lookup "hash" = some hv)
    (hok : digestOk H pls hv = true)
    (htot : fields.lookup "total_chunks" = some tv) :
    ∃ st2 : RecvState, st2.stored = st.stored ∧
      dataPath H st fields = storeAndAck st2 cn pls := by
  unfold dataPath
  rw [hcn, hpl, hhash, htot]
  simp only [hok, Bool.not_true, Bool.false_eq_true, if_false]
  by_cases h : jvalEqInt st.total (-1) = true
  · exact ⟨{ st with total := tv }, rfl, by simp [h]⟩
  · exact ⟨st, rfl, by simp [h]⟩

lemma keyCount_eq_zero_iff_any (l : List (JVal × String)) (k : JVal) :
    keyCount l k = 0 ↔ l.any (fun kv => pyEq kv.1 k) = false := by
  simp [keyCount, List.length_eq_zero, List.filter_eq_nil_iff, List.any_eq_false]

lemma any_of_keyCount_ne_zero (l : List (JVal × String)) (k : JVal)
    (h : keyCount l k ≠ 0) : l.any (fun kv => pyEq kv.1 k) = true := by
  rcases Bool.eq_false_or_eq_true (l.any (fun kv => pyEq kv.1 k)) with h1 | h1
  · exact h1
  · exact absurd ((keyCount_eq_zero_iff_any l k).mpr h1) h

lemma keyCount_append_one (l : List (JVal × String)) (n : Int) (pls : String) :
    keyCount (l ++ [(JVal.jint n, pls)]) (JVal.jint n) =
      keyCount l (JVal.jint n) + 1 := by
  simp [keyCount, List.filter_append, pyEq]

lemma storeAndAck_fresh (st : RecvState) (n : Int) (pls : String)
    (h0 : keyCount st.stored (JVal.jint n) = 0) :
    (storeAndAck st (JVal.jint n) pls).ackOut = some (JVal.jint n) ∧
    ∀ s, (storeAndAck st (JVal.jint n) pls).stateOut = some s →
      s.stored = st.stored ++ [(JVal.jint n, pls)] := by
  have hany := (keyCount_eq_zero_iff_any _ _).mp h0
  unfold storeAndAck
  simp only [hashable, hany, Bool.false_eq_true, if_false, if_true]
  refine ⟨checkBreak_ackOut _ _, ?_⟩
  intro s hs
  rw [checkBreak_stateOut] at hs
  cases hs
  rfl

lemma storeAndAck_dup (st : RecvState) (n : Int) (pls : String)
    (h1 : st.stored.any (fun kv => pyEq kv.1 (JVal.jint n)) = true) :
    (storeAndAck st (JVal.jint n) pls).ackOut = some (JVal.jint n) ∧
    ∀ s, (storeAndAck st (JVal.jint n) pls).stateOut = some s → s = st := by
  unfold storeAndAck
  simp only [hashable, h1, if_true]
  refine ⟨checkBreak_ackOut _ _, ?_⟩
  intro s hs
  rw [checkBreak_stateOut] at hs
  cases hs
  rfl

/-- C4: delivering the same valid data packet (matching digest, int
`chunk_num` not yet stored) twice stores exactly one entry under that
`chunk_num`, and the receiver writes `Ack{ack_num: chunk_num}` on each of the
two deliveries, including the duplicate one (transfer.py:185-191, where the
store is guarded by `chunk_num not in stored_chunks` but the ack write is
unconditional). -/
theorem receiver_duplicate_idempotent (H : String → String) (st : RecvState)
    (fields : List (String × JVal)) (n : Int) (hv tv : JVal) (pls : String)
    (htype : optIsStr (pyGet fields "type") "data" = true)
    (hcn : fields.lookup "chunk_num" = some (JVal.jint n))
    (hpl : fields.lookup "payload" = some (JVal.jstr pls))
    (hhash : fields.lookup "hash" = some hv)
    (hok : digestOk H pls hv = true)
    (htot : fields.lookup "total_chunks" = some tv)
    (h0 : keyCount st.stored (JVal.jint n) = 0) :
    (recvStep H st (Parsed.obj fields)).ackOut = some (JVal.jint n) ∧
    ∀ s1, (recvStep H st (Parsed.obj fields)).stateOut = some s1 →
      keyCount s1.stored (JVal.jint n) = 1 ∧
      (recvStep H s1 (Parsed.obj fields)).ackOut = some (JVal.jint n) ∧
      ∀ s2, (recvStep H s1 (Parsed.obj fields)).stateOut = some s2 →
        keyCount s2.stored (JVal.jint n) = 1 := by
  obtain ⟨st2, hst2, heq⟩ :=
    dataPath_valid H (latchMeta st fields) fields (JVal.jint n) hv tv pls
      hcn hpl hhash hok htot
  have h0b : keyCount st2.stored (JVal.jint n) = 0 := by
    rw [hst2, latchMeta_stored]; exact h0
  have hfresh := storeAndAck_fresh st2 n pls h0b
  rw [recvStep_data H st fields htype, heq]
  refine ⟨hfresh.1, ?_⟩
  intro s1 hs1
  have hs1e := hfresh.2 s1 hs1
  have hc1 : keyCount s1.stored (JVal.jint n) = 1 := by
    rw [hs1e, keyCount_append_one, h0b]
  refine ⟨hc1, ?_⟩
  obtain ⟨st3, hst3, heq2⟩ :=
    dataPath_valid H (latchMeta s1 fields) fields (JVal.jint n) hv tv pls
      hcn hpl hhash hok htot
  have hc3 : keyCount st3.stored (JVal.jint n) = 1 := by
    rw [hst3, latchMeta_stored]; exact hc1
  have hany : st3.stored.any (fun kv => pyEq kv.1 (JVal.jint n)) = true :=
    any_of_keyCount_ne_zero _ _ (by rw [hc3]; exact one_ne_zero)
  have hdup := storeAndAck_dup st3 n pls hany
  rw [recvStep_data H s1 fields htype, heq2]
  refine ⟨hdup.1, ?_⟩
  intro s2 hs2
  have := hdup.2 s2 hs2
  rw [this]
  exact hc3

/-- C4 witness: a concrete valid data packet delivered twice to the fresh
receiver: one stored entry for chunk 1, an ack on both deliveries. -/
theorem receiver_duplicate_idempotent_witness :
    (recvStep (fun s => s) recvInit (Parsed.obj
      [("type", JVal.jstr "data"), ("chunk_num", JVal.jint 1),
       ("total_chunks", JVal.jint 2), ("hash", JVal.jstr "abc"),
       ("payload", JVal.jstr "abc")])).ackOut = some (JVal.jint 1) ∧
    ∀ s1, (recvStep (fun s => s) recvInit (Parsed.obj
      [("type", JVal.jstr "data"), ("chunk_num", JVal.jint 1),
       ("total_chunks", JVal.jint 2), ("hash", JVal.jstr "abc"),
       ("payload", JVal.jstr "abc")])).stateOut = some s1 →
      keyCount s1.stored (JVal.jint 1) = 1 ∧
      (recvStep (fun s => s) s1 (Parsed.obj
        [("type", JVal.jstr "data"), ("chunk_num", JVal.jint 1),
         ("total_chunks", JVal.jint 2), ("hash", JVal.jstr "abc"),
         ("payload", JVal.jstr "abc")])).ackOut = some (JVal.jint 1) ∧
      ∀ s2, (recvStep (fun s => s) s1 (Parsed.obj
        [("type", JVal.jstr "data"), ("chunk_num", JVal.jint 1),
         ("total_chunks", JVal.jint 2), ("hash", JVal.jstr "abc"),
         ("payload", JVal.jstr "abc")])).stateOut = some s2 →
        keyCount s2.stored (JVal.jint 1) = 1 :=
  receiver_duplicate_idempotent (fun s => s) recvInit _ 1 _ _ "abc"
    (by decide) rfl rfl rfl (by decide) rfl rfl

/-! ## C6 -/

/-- Case summary of one receiver iteration relative to the state `st` it
started from: it crashes, stops on Finish, stops on completion only with the
completion condition true, or continues with the condition false or with
`stored` and `total` untouched. -/
def DPCases (st : RecvState) (r : RecvOut) : Prop :=
  r = RecvOut.crash ∨
  (∃ s, r = RecvOut.haltFinish s) ∨
  (∃ s a, r = RecvOut.haltComplete s a ∧ allReceived s = true) ∨
  (∃ s a, r = RecvOut.cont s a ∧
     (allReceived s = false ∨ (s.stored = st.stored ∧ s.total = st.total)))

lemma dpcases_of_cb (st st2 : RecvState) (a : Option JVal) (r : RecvOut)
    (h : checkBreak st2 a = r) : DPCases st r := by
  rcases checkBreak_cases _ _ _ h with ⟨h1, h2⟩ | ⟨h1, h2⟩
  · exact Or.inr (Or.inr (Or.inl ⟨st2, a, h1, h2⟩))
  · exact Or.inr (Or.inr (Or.inr ⟨st2, a, h1, Or.inl h2⟩))

lemma dpcases_of_saa (st st2 : RecvState) (cn : JVal) (pls : String)
    (r : RecvOut) (h : storeAndAck st2 cn pls = r) : DPCases st r := by
  unfold storeAndAck at h
  split at h
  · split at h <;> exact dpcases_of_cb st _ _ _ h
  · exact dpcases_of_cb st _ _ _ h

lemma dataPath_cases (H : String → String) (st : RecvState)
    (fields : List (String × JVal)) (r : RecvOut)
    (h : dataPath H st fields = r) : DPCases st r := by
  unfold dataPath at h
  split at h
  · exact dpcases_of_cb st _ _ _ h
  · exact dpcases_of_cb st _ _ _ h
  · split at h
    · exact dpcases_of_cb st _ _ _ h
    · split at h
      · exact Or.inr (Or.inr (Or.inr ⟨st, none, h.symm, Or.inr ⟨rfl, rfl⟩⟩))
      · split at h
        · split at h
          · exact dpcases_of_cb st _ _ _ h
          · exact dpcases_of_saa st _ _ _ _ h
        · exact dpcases_of_saa st _ _ _ _ h
  · exact Or.inl h.symm

lemma recvStep_cases (H : String → String) (st : RecvState) (p : Parsed)
    (r : RecvOut) (h : recvStep H st p = r) : DPCases st r := by
  cases p with
  | malformed =>
    simp only [recvStep] at h
    exact dpcases_of_cb st _ _ _ h
  | nonObj v =>
    simp only [recvStep] at h
    exact Or.inl h.symm
  | obj fields =>
    simp only [recvStep] at h
    split at h
    · exact Or.inr (Or.inl ⟨st, h.symm⟩)
    · split at h
      · exact Or.inr (Or.inr (Or.inr ⟨st, none, h.symm, Or.inr ⟨rfl, rfl⟩⟩))
      · rcases dataPath_cases H (latchMeta st fields) fields r h with
          h1 | ⟨s, h1⟩ | ⟨s, a, h1, h2⟩ | ⟨s, a, h1, h2⟩
        · exact Or.inl h1
        · exact Or.inr (Or.inl ⟨s, h1⟩)
        · exact Or.inr (Or.inr (Or.inl ⟨s, a, h1, h2⟩))
        · refine Or.inr (Or.inr (Or.inr ⟨s, a, h1, ?_⟩))
          rcases h2 with h2 | ⟨h2a, h2b⟩
          · exact Or.inl h2
          · exact Or.inr ⟨by rw [h2a, latchMeta_stored],
                          by rw [h2b, latchMeta_total]⟩

/-- C6: the accumulation loop stops on the count condition exactly when the
number of stored chunk entries equals the latched `total_chunks`
(transfer.py:193): every count-based stop has `total_chunks` latched (not the
`-1` sentinel, so the receiver never stops on this condition while
`total_chunks` is unknown) and the stored count Python-equal to it; and every
continuing iteration whose resulting state satisfies the condition started
from a state already satisfying it (so along any run the loop breaks the
moment the condition first holds, regardless of arrival order). -/
theorem receiver_completion_exact (H : String → String) (st : RecvState)
    (p : Parsed) :
    (∀ s a, recvStep H st p = RecvOut.haltComplete s a →
       jvalEqInt s.total (-1) = false ∧
       pyEq (JVal.jint (s.stored.length : Int)) s.total = true) ∧
    (∀ s a, recvStep H st p = RecvOut.cont s a →
       allReceived s = true → allReceived st = true) := by
  constructor
  · intro s a h
    rcases recvStep_cases H st p _ h with
      h1 | ⟨s2, h1⟩ | ⟨s2, a2, h1, h2⟩ | ⟨s2, a2, h1, h2⟩
    · cases h1
    · cases h1
    · obtain ⟨rfl, rfl⟩ : s = s2 ∧ a = a2 := by
        injection h1 with e1 e2; exact ⟨e1, e2⟩
      simpa [allReceived, Bool.and_eq_true, Bool.not_eq_true'] using h2
    · cases h1
  · intro s a h hall
    rcases recvStep_cases H st p _ h with
      h1 | ⟨s2, h1⟩ | ⟨s2, a2, h1, h2⟩ | ⟨s2, a2, h1, h2⟩
    · cases h1
    · cases h1
    · cases h1
    · obtain ⟨rfl, rfl⟩ : s = s2 ∧ a = a2 := by
        injection h1 with e1 e2; exact ⟨e1, e2⟩
      rcases h2 with h2 | ⟨h2a, h2b⟩
      · rw [hall] at h2; cases h2
      · rw [allReceived, ← h2a, ← h2b]
        rw [allReceived] at hall
        exact hall

/-- C6 witness: a concrete single-chunk transfer completes the loop with the
stored count equal to the latched total. -/
theorem receiver_completion_exact_witness :
    jvalEqInt (JVal.jint 1) (-1) = false ∧
    pyEq (JVal.jint ([(JVal.jint 1, "abc")].length : Int)) (JVal.jint 1) =
      true :=
  (receiver_completion_exact (fun s => s) recvInit (Parsed.obj
      [("type", JVal.jstr "data"), ("chunk_num", JVal.jint 1),
       ("total_chunks", JVal.jint 1), ("original_file_hash", JVal.jstr "F"),
       ("archive_type", JVal.jnull), ("hash", JVal.jstr "abc"),
       ("payload", JVal.jstr "abc")])).1
    { stored := [(JVal.jint 1, "abc")], total := JVal.jint 1,
      fileHash := some (JVal.jstr "F"), archiveType := none }
    (some (JVal.jint 1)) rfl

/-! ## C7 -/

lemma chunksFull_length (C : Nat) (enc : List Char) :
    (chunksFull C enc).length = (enc.length + C - 1) / C := by
  simp [chunksFull]

lemma ceil_shift (C n : Nat) (hC : 0 < C) (hn : 1 ≤ n) :
    (n + C - 1) / C = ((n - C) + C - 1) / C + 1 := by
  have e1 : n + C - 1 = (n - 1) + C := by omega
  rw [e1, Nat.add_div_right _ hC]
  rcases Nat.lt_or_ge n C with h | h
  · have e2 : n - C = 0 := by omega
    rw [e2]
    have r1 : (n - 1) / C = 0 := Nat.div_eq_of_lt (by omega)
    have r2 : (0 + C - 1) / C = 0 := Nat.div_eq_of_lt (by omega)
    rw [r1, r2]
  · have e2 : (n - C) + C - 1 = n - 1 := by omega
    rw [e2]

lemma chunksFull_join (C : Nat) (hC : 0 < C) :
    ∀ enc : List Char, (chunksFull C enc).flatten = enc := by
  suffices h : ∀ n (l : List Char), l.length ≤ n → (chunksFull C l).flatten = l by
    intro enc; exact h enc.length enc le_rfl
  intro n
  induction n with
  | zero =>
    intro l hl
    have h0 : l = [] := List.length_eq_zero.mp (Nat.le_zero.mp hl)
    subst h0
    simp [chunksFull, Nat.div_eq_of_lt (by omega : 0 + C - 1 < C)]
  | succ n ih =>
    intro l hl
    by_cases h0 : l.length = 0
    · have h0e : l = [] := List.length_eq_zero.mp h0
      subst h0e
      simp [chunksFull, Nat.div_eq_of_lt (by omega : 0 + C - 1 < C)]
    · have hn : 1 ≤ l.length := by omega
      have hshift := ceil_shift C l.length hC hn
      unfold chunksFull
      rw [hshift, List.range_succ_eq_map, List.map_cons, List.map_map,
          List.flatten_cons]
      have htail :
          (List.map ((fun i => (l.drop (i * C)).take C) ∘ Nat.succ)
            (List.range ((l.length - C + C - 1) / C))) =
          chunksFull C (l.drop C) := by
        unfold chunksFull
        rw [List.length_drop]
        apply List.map_congr_left
        intro i _
        simp only [Function.comp_apply]
        rw [Nat.succ_mul, Nat.add_comm (i * C) C, ← List.drop_drop]
      rw [htail, ih (l.drop C) (by simp; omega)]
      simp

/-- C7: the sender partitions the encoded string into
`ceil(len / CHUNK_SIZE)` ordered slices `enc[i*CHUNK_SIZE:(i+1)*CHUNK_SIZE]`
(transfer.py:128, 133-137): concatenating them in chunk order reconstructs
the string exactly, their number is `totalChunks`, every chunk before the
last has exactly `CHUNK_SIZE` characters and no chunk exceeds `CHUNK_SIZE`. -/
theorem sender_chunking (enc : List Char) :
    (senderChunks enc).flatten = enc ∧
    (senderChunks enc).length = totalChunks enc.length ∧
    (∀ i, i + 1 < totalChunks enc.length →
       ((enc.drop (i * CHUNK_SIZE)).take CHUNK_SIZE).length = CHUNK_SIZE) ∧
    (∀ i, ((enc.drop (i * CHUNK_SIZE)).take CHUNK_SIZE).length ≤ CHUNK_SIZE) := by
  have hC : 0 < CHUNK_SIZE := by norm_num [CHUNK_SIZE]
  refine ⟨chunksFull_join CHUNK_SIZE hC enc, chunksFull_length CHUNK_SIZE enc,
    ?_, ?_⟩
  · intro i h
    have h2 : i + 2 ≤ (enc.length + CHUNK_SIZE - 1) / CHUNK_SIZE := h
    have h3 : (i + 2) * CHUNK_SIZE ≤ enc.length + CHUNK_SIZE - 1 :=
      (Nat.le_div_iff_mul_le hC).mp h2
    have h4 : (i + 2) * CHUNK_SIZE = i * CHUNK_SIZE + 2 * CHUNK_SIZE := by ring
    simp only [List.length_take, List.length_drop]
    omega
  · intro i
    simp [List.length_take]

/-- C7 witness: with an encoded string one character longer than
`CHUNK_SIZE`, the first chunk (which is not the last one) has exactly
`CHUNK_SIZE` characters. -/
theorem sender_chunking_witness :
    0 + 1 < totalChunks (List.replicate (CHUNK_SIZE + 1) 'a').length ∧
    (((List.replicate (CHUNK_SIZE + 1) 'a').drop
        (0 * CHUNK_SIZE)).take CHUNK_SIZE).length = CHUNK_SIZE := by
  have h : 0 + 1 < totalChunks (List.replicate (CHUNK_SIZE + 1) 'a').length := by
    rw [List.length_replicate]
    show 0 + 1 < (CHUNK_SIZE + 1 + CHUNK_SIZE - 1) / CHUNK_SIZE
    norm_num [CHUNK_SIZE]
  exact ⟨h, (sender_chunking (List.replicate (CHUNK_SIZE + 1) 'a')).2.2.1 0 h⟩

/-! ## C9 -/

lemma b64_table : ∀ n, n < 64 → b64index (b64char n) = some n := by decide
lemma b64char_ne_pad : ∀ n, n < 64 → b64char n ≠ '=' := by decide

/-- C9: the byte-to-text codec used at transfer.py:127 and reversed at
transfer.py:206 is exactly reversible: decoding the base64 encoding of any
byte string (bytes as naturals below 256), including the empty one, yields
the byte string unchanged. -/
theorem b64_encode_decode_roundtrip : ∀ (B : List Nat), (∀ b ∈ B, b < 256) →
    b64decodeRec (b64encodeRec B) = some B
  | [] => fun _ => rfl
  | [a] => fun h => by
      have ha : a < 256 := h a (by simp)
      have h1 : a / 4 < 64 := by omega
      have h2 : a % 4 * 16 < 64 := by omega
      simp only [b64encodeRec, b64decodeRec]
      rw [b64_table _ h1, b64_table _ h2]
      simp only [reduceIte, and_self, if_true]
      refine congrArg some ?_
      refine congrArg (fun x => [x]) ?_
      omega
  | [a, b] => fun h => by
      have ha : a < 256 := h a (by simp)
      have hb : b < 256 := h b (by simp)
      have h1 : a / 4 < 64 := by omega
      have h2 : a % 4 * 16 + b / 16 < 64 := by omega
      have h3 : b % 16 * 4 < 64 := by omega
      simp only [b64encodeRec, b64decodeRec]
      rw [b64_table _ h1, b64_table _ h2]
      dsimp only
      rw [if_neg (fun hc => b64char_ne_pad _ h3 hc.1)]
      rw [b64_table _ h3]
      dsimp only
      rw [if_pos ⟨trivial, trivial⟩]
      refine congrArg some ?_
      have e1 : a / 4 * 4 + (a % 4 * 16 + b / 16) / 16 = a := by omega
      have e2 : (a % 4 * 16 + b / 16) % 16 * 16 + b % 16 * 4 / 4 = b := by omega
      rw [e1, e2]
  | a :: b :: c :: rest => fun h => by
      have ha : a < 256 := h a (by simp)
      have hb : b < 256 := h b (by simp)
      have hc : c < 256 := h c (by simp)
      have ih := b64_encode_decode_roundtrip rest (fun x hx => h x (by simp [hx]))
      have h1 : a / 4 < 64 := by omega
      have h2 : a % 4 * 16 + b / 16 < 64 := by omega
      have h3 : b % 16 * 4 + c / 64 < 64 := by omega
      have h4 : c % 64 < 64 := by omega
      simp only [b64encodeRec, b64decodeRec]
      rw [b64_table _ h1, b64_table _ h2]
      dsimp only
      rw [if_neg (fun hcc => b64char_ne_pad _ h3 hcc.1)]
      rw [b64_table _ h3]
      dsimp only
      rw [if_neg (fun hcc => b64char_ne_pad _ h4 hcc.1)]
      rw [b64_table _ h4, ih]
      dsimp only
      refine congrArg some ?_
      have e1 : a / 4 * 4 + (a % 4 * 16 + b / 16) / 16 = a := by omega
      have e2 : (a % 4 * 16 + b / 16) % 16 * 16 + (b % 16 * 4 + c / 64) / 4 = b := by omega
      have e3 : (b % 16 * 4 + c / 64) % 4 * 64 + c % 64 = c := by omega
      rw [e1, e2, e3]


/-- C9 witness: the codec round-trips the concrete bytes of "Man" followed
by 0 and 255, and the empty byte string. -/
theorem b64_encode_decode_roundtrip_witness :
    b64decodeRec (b64encodeRec [77, 97, 110, 0, 255]) =
      some [77, 97, 110, 0, 255] :=
  b64_encode_decode_roundtrip [77, 97, 110, 0, 255] (by decide)

/-! ## C5 -/

/-- C5: the sender is stop-and-wait with unbounded identical retries
(transfer.py:133-154).  First conjunct: a poll step advances the chunk cursor
only when the read is fresh (differs from `last_cb_content`) and decodes to
an ack with `ack_num` equal to the current 1-based chunk number — so at most
one chunk is ever outstanding.  Second conjunct: when the 15-second
`ACK_TIMEOUT_SECONDS` budget expires without such an ack, the step re-writes
the chunk's data packet and restarts the wait (`ticks` back to 0, same
`idx`, not done).  Third conjunct: the packet written when the attempt began
is that same `dataPacketFields` value, so the retry write is identical to the
previous send.  Fourth conjunct: before the budget expires a non-ack read
writes nothing, so retries happen only at timeout expiry. -/
theorem sender_stop_and_wait {α : Type} [DecidableEq α] (parse : α → Parsed)
    (H : String → String) (enc : List Char) (fh at_ : JVal)
    (s : SendState α) (r : α) :
    (s.done = false →
     (sendStep parse H enc fh at_ s r).1.idx ≠ s.idx →
       r ≠ s.lastCb ∧ ackMatches (parse r) (s.idx + 1) = true) ∧
    (s.done = false →
     (r = s.lastCb ∨ ackMatches (parse r) (s.idx + 1) = false) →
     s.ticks + 1 ≥ ACK_TIMEOUT_SECONDS →
       (sendStep parse H enc fh at_ s r).2 =
         [SendEvent.wroteData (dataPacketFields H enc fh at_ s.idx)] ∧
       (sendStep parse H enc fh at_ s r).1.idx = s.idx ∧
       (sendStep parse H enc fh at_ s r).1.ticks = 0 ∧
       (sendStep parse H enc fh at_ s r).1.done = false) ∧
    (s.idx < totalChunks enc.length →
       (startChunk H enc fh at_ s.lastCb s.idx).2 =
         [SendEvent.wroteData (dataPacketFields H enc fh at_ s.idx)]) ∧
    (s.done = false →
     (r = s.lastCb ∨ ackMatches (parse r) (s.idx + 1) = false) →
     s.ticks + 1 < ACK_TIMEOUT_SECONDS →
       (sendStep parse H enc fh at_ s r).2 = [] ∧
       (sendStep parse H enc fh at_ s r).1.idx = s.idx ∧
       (sendStep parse H enc fh at_ s r).1.ticks = s.ticks + 1) ∧
    (s.done = false → r ≠ s.lastCb → ackMatches (parse r) (s.idx + 1) = true →
       (sendStep parse H enc fh at_ s r).1.idx = s.idx + 1) := by
  refine ⟨?_, ?_, ?_, ?_, ?_⟩
  · intro hdone hidx
    unfold sendStep at hidx
    rw [hdone] at hidx
    simp only [Bool.false_eq_true, if_false] at hidx
    by_cases heq : r = s.lastCb
    · rw [if_pos heq] at hidx
      unfold tickOrResend at hidx
      split at hidx <;> simp at hidx
    · rw [if_neg heq] at hidx
      constructor
      · exact heq
      · by_cases hack : ackMatches (parse r) (s.idx + 1) = true
        · exact hack
        · rw [Bool.not_eq_true] at hack
          rw [hack] at hidx
          simp only [Bool.false_eq_true, if_false] at hidx
          unfold tickOrResend at hidx
          split at hidx <;> simp at hidx
  · intro hdone hnoack htmo
    have hred : sendStep parse H enc fh at_ s r =
        tickOrResend H enc fh at_
          (if r = s.lastCb then s else { s with lastCb := r }) := by
      unfold sendStep
      rw [hdone]
      simp only [Bool.false_eq_true, if_false]
      by_cases heq : r = s.lastCb
      · rw [if_pos heq, if_pos heq]
      · rcases hnoack with hnoack | hnoack
        · exact absurd hnoack heq
        · rw [if_neg heq, if_neg heq, hnoack]
          simp
    rw [hred]
    unfold tickOrResend
    by_cases heq : r = s.lastCb <;>
      simp [heq, htmo, hdone]
  · intro hlt
    unfold startChunk
    rw [if_pos hlt]
  · intro hdone hnoack htmo
    have hred : sendStep parse H enc fh at_ s r =
        tickOrResend H enc fh at_
          (if r = s.lastCb then s else { s with lastCb := r }) := by
      unfold sendStep
      rw [hdone]
      simp only [Bool.false_eq_true, if_false]
      by_cases heq : r = s.lastCb
      · rw [if_pos heq, if_pos heq]
      · rcases hnoack with hnoack | hnoack
        · exact absurd hnoack heq
        · rw [if_neg heq, if_neg heq, hnoack]
          simp
    rw [hred]
    unfold tickOrResend
    by_cases heq : r = s.lastCb <;>
      simp [heq, htmo, Nat.not_le.mpr htmo]
  · intro hdone hfresh hack
    unfold sendStep
    rw [hdone]
    simp only [Bool.false_eq_true, if_false]
    rw [if_neg hfresh, if_pos (by rw [hack])]
    unfold startChunk
    split <;> rfl

/-- C5 witness: a concrete wait at its 15th second with a stale read
re-writes exactly the chunk-0 packet and restarts the wait. -/
theorem sender_stop_and_wait_witness :
    (sendStep (fun p => p) (fun s => s) ['a'] (JVal.jstr "F") JVal.jnull
       { idx := 0, ticks := 14, lastCb := Parsed.malformed, done := false }
       Parsed.malformed).2 =
      [SendEvent.wroteData
        (dataPacketFields (fun s => s) ['a'] (JVal.jstr "F") JVal.jnull 0)] ∧
    (sendStep (fun p => p) (fun s => s) ['a'] (JVal.jstr "F") JVal.jnull
       { idx := 0, ticks := 14, lastCb := Parsed.malformed, done := false }
       Parsed.malformed).1.idx = 0 ∧
    (sendStep (fun p => p) (fun s => s) ['a'] (JVal.jstr "F") JVal.jnull
       { idx := 0, ticks := 14, lastCb := Parsed.malformed, done := false }
       Parsed.malformed).1.ticks = 0 ∧
    (sendStep (fun p => p) (fun s => s) ['a'] (JVal.jstr "F") JVal.jnull
       { idx := 0, ticks := 14, lastCb := Parsed.malformed, done := false }
       Parsed.malformed).1.done = false :=
  (sender_stop_and_wait (fun p => p) (fun s => s) ['a'] (JVal.jstr "F")
      JVal.jnull
      { idx := 0, ticks := 14, lastCb := Parsed.malformed, done := false }
      Parsed.malformed).2.1 rfl (Or.inl rfl) (by decide)

/-! ## C10 -/

lemma senderRunFrom_done {α : Type} [DecidableEq α] (parse : α → Parsed)
    (H : String → String) (enc : List Char) (fh at_ : JVal)
    (s : SendState α) (hdone : s.done = true) :
    ∀ reads : List α, senderRunFrom parse H enc fh at_ s reads = [] := by
  intro reads
  induction reads with
  | nil => rfl
  | cons r rs ih =>
    unfold senderRunFrom sendStep
    rw [hdone]
    simpa using ih

/-- C10: for an empty input file the base64 string is empty, so the sender
computes `total_chunks = 0`, its chunk loop body never runs (no data packet
is ever written, whatever it reads), and the only channel write is the single
finish packet (transfer.py:127-133, 156-157); a receiver that consequently
only ever sees the finish packet exits its loop immediately with nothing
stored and `total_chunks` still the `-1` sentinel, and its post-loop phase
reports Incomplete 0 of -1 without writing any output file
(transfer.py:172, 197-198). -/
theorem empty_file_transfer {α : Type} [DecidableEq α] (parse : α → Parsed)
    (H : String → String) (fh at_ : JVal) (e0 : α) (reads : List α)
    (HB : List Nat → String) (b64dec : String → Option (List Nat))
    (out : String) :
    totalChunks ([] : List Char).length = 0 ∧
    senderRun parse H [] fh at_ e0 reads = [SendEvent.wroteFinish] ∧
    recvStep H recvInit (Parsed.obj [("type", JVal.jstr "finish")]) =
      RecvOut.haltFinish recvInit ∧
    recvInit.total = JVal.jint (-1) ∧
    finishPhase HB b64dec recvInit out =
      FinalOutcome.incomplete 0 (JVal.jint (-1)) := by
  have h0 : totalChunks ([] : List Char).length = 0 := by
    norm_num [totalChunks, CHUNK_SIZE]
  refine ⟨h0, ?_, rfl, rfl, ?_⟩
  · unfold senderRun startChunk
    rw [h0]
    simp only [Nat.not_lt_zero, if_false]
    rw [senderRunFrom_done parse H [] fh at_ _ rfl reads]
    rfl
  · exact receiver_incomplete_reported HB b64dec recvInit out (Or.inl rfl)

end ClipTunnel
